import Mathlib

/-
Verification of the Towns-slot jackpot payout and settlement logic.

The repository is a chat-platform slot-machine bot existing in several
near-duplicate variants:
  * src/src/index.ts      — ETH, percentage-of-pool payouts, pending-payout claim flow
  * src/src/db.ts (tail)  — ETH, single-game percentage variant
  * src/unnamed/part_000  — ETH, multi-game local-ledger variant with payment rollback
  * src/unnamed/part_001  — first half: ETH external-mirror variant;
                            second half: USDC variant with fixed-multiple payouts
  * src/unnamed/part_002  — ETH, multi-game local-ledger variant (same as part_000)

Modelling conventions:
  * JavaScript bigint values are embedded as ℤ; bigint division truncates
    toward zero, which is Int.tdiv (Lean's / on ℤ rounds toward −∞, so it is
    not used in the embedding).
  * Non-negative quantities computed only from non-negative inputs
    (the payout formula, the fee split, tip validation) are embedded on ℕ,
    where / is floor division exactly as bigint division on non-negatives.
  * The JavaScript float expression Math.round(Number(amount) / Number(fee))
    is modelled exactly on rationals: for non-negative x, Math.round x is
    the floor of x + 1/2, so Math.round (a / f) = (2a + f) / (2f) in floor
    division.
  * The three reel symbols are indices into
    SLOT_SYMBOLS = [🍒, 🍋, 🍊, 🍇, 🍉, ⭐, 💎, 🎰], i.e. Fin 8, with the
    rare jackpot symbol 💎 at index 6.
  * Effects (messages sent, payment attempts) are recorded as explicit data
    so that per-claim properties about them can be stated.
-/

namespace TownsSlot

/-- A reel symbol: an index into the 8-symbol alphabet SLOT_SYMBOLS
(src/src/index.ts line 26). The designated rare symbol 💎 has index 6. -/
abbrev Symbol := Fin 8

/-- Index of 💎 in SLOT_SYMBOLS. -/
def diamond : Symbol := ⟨6, by norm_num⟩

/-- Payout classification of one spin, named after the keys of
PAYOUT_PERCENTAGES (src/src/index.ts lines 84-89). -/
inductive Tier where
  | threeDiamonds
  | threeOfAKind
  | twoOfAKind
  | noMatch
deriving DecidableEq, Repr

/-- calculateWinnings (src/src/index.ts lines 103-133), restricted to the
classification it returns.  The checks are performed in the source's order:
all three equal (then the rare-symbol sub-check), then any pairwise
equality, else no match. -/
def calculateWinnings (a b c : Symbol) : Tier :=
  if a = b ∧ b = c then
    if a = diamond then Tier.threeDiamonds else Tier.threeOfAKind
  else if a = b ∨ b = c ∨ a = c then Tier.twoOfAKind
  else Tier.noMatch

/-- PAYOUT_PERCENTAGES (src/src/index.ts lines 84-89). -/
def PAYOUT_PERCENTAGES : Tier → ℕ
  | Tier.threeDiamonds => 100
  | Tier.threeOfAKind => 50
  | Tier.twoOfAKind => 20
  | Tier.noMatch => 0

/-- FEE_PERCENTAGE (src/src/index.ts line 92): 10% of each payout goes to the
deployer when a deployer address is configured. -/
def FEE_PERCENTAGE : ℕ := 10

/-- payoutAmount = (jackpot * percentageMultiplier) / 100n
(src/src/index.ts lines 591-592), on the non-negative pool balance. -/
def payoutAmount (jackpot pct : ℕ) : ℕ := jackpot * pct / 100

/-- feeAmount = (payoutAmount * FEE_PERCENTAGE) / 100n
(src/src/index.ts line 599). -/
def feeAmount (payout : ℕ) : ℕ := payout * FEE_PERCENTAGE / 100

/-- winnerPayout (src/src/index.ts lines 596-602): the full payout, minus the
deployer fee when DEPLOYER_ADDRESS is configured. -/
def winnerPayout (deployerSet : Bool) (payout : ℕ) : ℕ :=
  if deployerSet then payout - feeAmount payout else payout

/-- Math.round (amount / fee) on exact rationals, for fee > 0:
floor (amount / fee + 1/2) = (2 * amount + fee) / (2 * fee) in floor division
(src/src/index.ts line 535-536 computes this with JavaScript floats). -/
def roundRatio (fee amount : ℕ) : ℕ := (2 * amount + fee) / (2 * fee)

/-- numGames = Math.max(1, Math.round(expectedGames))
(src/src/index.ts line 536). -/
def numGamesOf (fee amount : ℕ) : ℕ := max 1 (roundRatio fee amount)

/-- expectedAmount = entryFeeWei * BigInt(numGames)
(src/src/index.ts line 539). -/
def expectedAmount (fee amount : ℕ) : ℕ := fee * numGamesOf fee amount

/-- difference (src/src/index.ts lines 540-542): absolute gap between the
received amount and the expected amount. -/
def amountDifference (fee amount : ℕ) : ℕ :=
  if expectedAmount fee amount < amount then amount - expectedAmount fee amount
  else expectedAmount fee amount - amount

/-- tolerancePerGame = entryFeeWei / 10n (src/src/index.ts line 545). -/
def tolerancePerGame (fee : ℕ) : ℕ := fee / 10

/-- maxTolerance = tolerancePerGame * BigInt(numGames)
(src/src/index.ts line 546). -/
def maxTolerance (fee amount : ℕ) : ℕ :=
  tolerancePerGame fee * numGamesOf fee amount

/-- minAmount = entryFeeWei - tolerancePerGame (src/src/index.ts line 549). -/
def minAmount (fee : ℕ) : ℕ := fee - tolerancePerGame fee

/-- The tip validation of src/src/index.ts lines 533-564: the tip is rejected
when amount < minAmount or difference > maxTolerance, accepted otherwise. -/
def tipAccepted (fee amount : ℕ) : Bool :=
  if amount < minAmount fee ∨ maxTolerance fee amount < amountDifference fee amount
  then false else true

/-- ENTRY_FEE_USDC_UNITS = 250_000 (src/unnamed/part_001 line 594):
$0.25 in 6-decimal USDC units. -/
def ENTRY_FEE_USDC_UNITS : ℕ := 250000

/-- The USDC variant's tip validation (src/unnamed/part_001 line 843): the
amount must be at least one entry fee and an exact multiple of it. -/
def usdcTipAccepted (amount : ℕ) : Bool :=
  if amount < ENTRY_FEE_USDC_UNITS ∨ amount % ENTRY_FEE_USDC_UNITS ≠ 0
  then false else true

/-- numGames = Number(event.amount / ENTRY_FEE_USDC_UNITS)
(src/unnamed/part_001 line 856). -/
def usdcNumGames (amount : ℕ) : ℕ := amount / ENTRY_FEE_USDC_UNITS

/-- One game of the percentage-of-pool loop (src/src/index.ts lines 579-613,
identically src/unnamed/part_000 lines 342-376).  The pool is a bigint, so ℤ
with truncated division.  Returns (new jackpot, payoutAmount, winnerPayout):
when the drawn tier has a positive percentage, the gross payout is
jackpot * pct / 100, the deployer fee is 10% of it when configured, and the
jackpot is debited by the full gross payout; otherwise nothing changes. -/
def ethGameStep (deployerSet : Bool) (jackpot : ℤ) (t : Tier) : ℤ × ℤ × ℤ :=
  if 0 < PAYOUT_PERCENTAGES t then
    let payout := Int.tdiv (jackpot * (PAYOUT_PERCENTAGES t : ℤ)) 100
    let fee := if deployerSet then Int.tdiv (payout * (FEE_PERCENTAGE : ℤ)) 100 else 0
    (jackpot - payout, payout, payout - fee)
  else (jackpot, 0, 0)

/-- The Playing loop over the purchased games (src/src/index.ts lines 579-618):
threads the jackpot through ethGameStep and accumulates
(final jackpot, totalWinnings, totalPayout). -/
def ethRunGames (deployerSet : Bool) (jackpot : ℤ) : List Tier → ℤ × ℤ × ℤ
  | [] => (jackpot, 0, 0)
  | t :: rest =>
    let s := ethGameStep deployerSet jackpot t
    let r := ethRunGames deployerSet s.1 rest
    (r.1, s.2.1 + r.2.1, s.2.2 + r.2.2)

/-- The local-ledger settlement of one batch after the entry fee was credited
(src/unnamed/part_000 lines 336-495): the games run, and if the total payout
is positive but the external payment fails after exhausting retries, the full
gross totalWinnings is credited back to the jackpot.  Returns the final
persisted jackpot. -/
def ledgerSettle (deployerSet : Bool) (jackpot : ℤ) (ts : List Tier)
    (paymentSucceeds : Bool) : ℤ :=
  let r := ethRunGames deployerSet jackpot ts
  if 0 < r.2.2 ∧ paymentSucceeds = false then r.1 + r.2.1 else r.1

/-- The whole local-ledger tip handler after validation
(src/unnamed/part_000 lines 329-495): all entry fees are credited to the
jackpot (jackpot += entryFeeWei * numGames), then the batch settles. -/
def ledgerOnTip (deployerSet : Bool) (jackpot entryFeeWei : ℤ) (ts : List Tier)
    (paymentSucceeds : Bool) : ℤ :=
  ledgerSettle deployerSet (jackpot + entryFeeWei * ts.length) ts paymentSucceeds

/-- The payout form of the USDC variant (src/unnamed/part_001 lines 624-629):
percentage-of-pool for the jackpot tier, fixed multiple of the entry fee for
the lower tiers. -/
inductive PayoutKind where
  | fixed
  | percentage
deriving DecidableEq, Repr

/-- PAYOUT_STRUCTURE (src/unnamed/part_001 lines 624-629): kind and value
(percentage for percentage payouts, entry-fee multiplier for fixed ones). -/
def PAYOUT_STRUCTURE : Tier → PayoutKind × ℕ
  | Tier.threeDiamonds => (PayoutKind.percentage, 100)
  | Tier.threeOfAKind => (PayoutKind.fixed, 3)
  | Tier.twoOfAKind => (PayoutKind.fixed, 1)
  | Tier.noMatch => (PayoutKind.fixed, 0)

/-- One game of the USDC fixed-payout loop (src/unnamed/part_001
lines 892-934).  The gross payout is a percentage of the current jackpot for
a percentage tier and ENTRY_FEE_USDC_UNITS times the multiplier for a fixed
tier; when it is positive, the fee split applies and the jackpot is debited
by the full gross payout with no check against the balance.
Returns (new jackpot, payoutAmount, winnerPayout). -/
def usdcGameStep (deployerSet : Bool) (jackpot : ℤ) (t : Tier) : ℤ × ℤ × ℤ :=
  let s := PAYOUT_STRUCTURE t
  let payout :=
    if s.1 = PayoutKind.percentage ∧ 0 < s.2 then
      Int.tdiv (jackpot * (s.2 : ℤ)) 100
    else if s.1 = PayoutKind.fixed ∧ 0 < s.2 then
      (ENTRY_FEE_USDC_UNITS : ℤ) * (s.2 : ℤ)
    else 0
  if 0 < payout then
    let fee := if deployerSet then Int.tdiv (payout * (FEE_PERCENTAGE : ℤ)) 100 else 0
    (jackpot - payout, payout, payout - fee)
  else (jackpot, 0, 0)

/-- The USDC variant's Playing loop (src/unnamed/part_001 lines 883-939),
accumulating (final jackpot, totalWinnings, totalPayout).  The initial
jackpot is the bot wallet's USDC balance read before the first game. -/
def usdcRunGames (deployerSet : Bool) (jackpot : ℤ) : List Tier → ℤ × ℤ × ℤ
  | [] => (jackpot, 0, 0)
  | t :: rest =>
    let s := usdcGameStep deployerSet jackpot t
    let r := usdcRunGames deployerSet s.1 rest
    (r.1, s.2.1 + r.2.1, s.2.2 + r.2.2)

/-- What one game leaves behind for display: the pool balance the game's
payout was computed from, the jackpot value passed to formatSlotResult for
that game's message, and the game's gross payout. -/
structure GameRecord where
  snapshot : ℤ
  displayed : ℤ
  payout : ℤ
deriving DecidableEq, Repr

/-- The per-game records of the percentage variant's loop: src/src/index.ts
line 616 calls formatSlotResult with the mutated jackpot variable, i.e. the
balance after that game's debit. -/
def ethGameRecords (deployerSet : Bool) (jackpot : ℤ) : List Tier → List GameRecord
  | [] => []
  | t :: rest =>
    let s := ethGameStep deployerSet jackpot t
    { snapshot := jackpot, displayed := s.1, payout := s.2.1 }
      :: ethGameRecords deployerSet s.1 rest

/-- The per-game records of the USDC variant's loop: src/unnamed/part_001
line 937 calls formatSlotResult with currentJackpot, the balance captured
before the game resolved (line 894). -/
def usdcGameRecords (deployerSet : Bool) (jackpot : ℤ) : List Tier → List GameRecord
  | [] => []
  | t :: rest =>
    let s := usdcGameStep deployerSet jackpot t
    { snapshot := jackpot, displayed := jackpot, payout := s.2.1 }
      :: usdcGameRecords deployerSet s.1 rest

/-- The user-facing reply of the claim flow (src/src/index.ts lines 362-406
and 436-492). -/
inductive ClaimMessage where
  | noPending
  | showButton
  | foundAlt
  | paidOut
  | payFailed
deriving DecidableEq, Repr

/-- Outcome of one press of the claim button: the user's pending balance after
the handler ran, the amounts of the payment attempts made, and the reply. -/
structure ClaimResult where
  newPending : ℤ
  payments : List ℤ
  message : ClaimMessage
deriving DecidableEq, Repr

/-- The claim-button handler (src/src/index.ts lines 436-492).  pending is
the balance stored for the wallet address in the request id, pendingAlt the
balance stored for the address derived from the user id.  With zero pending
balance (both keys) it only reports that nothing is claimable; otherwise it
attempts exactly one payment of the pending amount and clears the balance
only when the payment succeeded. -/
def claimButtonFlow (pending pendingAlt : ℤ) (paymentSucceeds : Bool) : ClaimResult :=
  if pending = 0 then
    if pendingAlt = 0 then
      { newPending := pending, payments := [], message := ClaimMessage.noPending }
    else
      { newPending := pending, payments := [], message := ClaimMessage.foundAlt }
  else if paymentSucceeds then
    { newPending := 0, payments := [pending], message := ClaimMessage.paidOut }
  else
    { newPending := pending, payments := [pending], message := ClaimMessage.payFailed }

/-- The /claim slash command (src/src/index.ts lines 342-406): with zero
pending balance it reports there is nothing to claim and offers no button;
otherwise it offers the claim button.  Returns (button offered, reply). -/
def slashClaim (pending : ℤ) : Bool × ClaimMessage :=
  if pending = 0 then (false, ClaimMessage.noPending)
  else (true, ClaimMessage.showButton)

/-- Spec-side predicate for the low tier: exactly two of the three positions
match, under any of the three pairings (1-2, 2-3, 1-3). -/
def exactlyTwoMatch (a b c : Symbol) : Prop :=
  (a = b ∧ c ≠ a) ∨ (b = c ∧ a ≠ b) ∨ (a = c ∧ b ≠ a)

instance decExactlyTwoMatch (a b c : Symbol) : Decidable (exactlyTwoMatch a b c) := by
  unfold exactlyTwoMatch
  infer_instance

/-- Spec-side classifier, written from the spec's four cases in the spec's
precedence, to be compared with calculateWinnings. -/
def specClassify (a b c : Symbol) : Tier :=
  if a = diamond ∧ b = diamond ∧ c = diamond then Tier.threeDiamonds
  else if a = b ∧ b = c then Tier.threeOfAKind
  else if exactlyTwoMatch a b c then Tier.twoOfAKind
  else Tier.noMatch

/- Helper lemmas shared by several claims. -/

/-- Every percentage in the payout table is at most 100. -/
lemma PAYOUT_PERCENTAGES_le_100 (t : Tier) : PAYOUT_PERCENTAGES t ≤ 100 := by
  cases t <;> simp [PAYOUT_PERCENTAGES]

/-- Floor division respects a percentage bound: B * P / 100 ≤ B when P ≤ 100. -/
lemma nat_pct_div_le (B P : ℕ) (hP : P ≤ 100) : B * P / 100 ≤ B := by
  have h := Nat.div_le_div_right (c := 100) (Nat.mul_le_mul_left B hP)
  simpa using h

/-- Truncated division respects a percentage bound on a non-negative pool. -/
lemma tdiv_pct_le (j : ℤ) (p : ℕ) (hj : 0 ≤ j) (hp : p ≤ 100) :
    Int.tdiv (j * (p : ℤ)) 100 ≤ j := by
  obtain ⟨n, rfl⟩ := Int.eq_ofNat_of_zero_le hj
  have h1 : ((n : ℤ) * (p : ℤ)) = ((n * p : ℕ) : ℤ) := by push_cast; ring
  rw [h1, show ((100 : ℤ)) = ((100 : ℕ) : ℤ) from rfl, ← Int.ofNat_tdiv]
  exact_mod_cast nat_pct_div_le n p hp

/-- Truncated division of a product of non-negatives is non-negative. -/
lemma tdiv_pct_nonneg (j : ℤ) (p : ℕ) (hj : 0 ≤ j) :
    0 ≤ Int.tdiv (j * (p : ℤ)) 100 := by
  apply Int.tdiv_nonneg
  · positivity
  · norm_num

/-- In each game the new jackpot is the old one minus that game's gross payout. -/
lemma ethGameStep_fst (d : Bool) (j : ℤ) (t : Tier) :
    (ethGameStep d j t).1 = j - (ethGameStep d j t).2.1 := by
  unfold ethGameStep
  split <;> simp

/-- A game of the percentage loop never drives a non-negative jackpot negative. -/
lemma ethGameStep_nonneg (d : Bool) (j : ℤ) (t : Tier) (hj : 0 ≤ j) :
    0 ≤ (ethGameStep d j t).1 := by
  unfold ethGameStep
  split
  · have := tdiv_pct_le j (PAYOUT_PERCENTAGES t) hj (PAYOUT_PERCENTAGES_le_100 t)
    simpa using this
  · simpa using hj

/-- The percentage loop keeps a non-negative jackpot non-negative. -/
lemma ethRunGames_nonneg (d : Bool) (j : ℤ) (ts : List Tier) (hj : 0 ≤ j) :
    0 ≤ (ethRunGames d j ts).1 := by
  induction ts generalizing j with
  | nil => simpa [ethRunGames] using hj
  | cons t rest ih =>
    simpa [ethRunGames] using ih _ (ethGameStep_nonneg d j t hj)

/-- Conservation in the percentage loop: the final jackpot plus the
accumulated gross winnings is the initial jackpot. -/
lemma ethRunGames_add_winnings (d : Bool) (j : ℤ) (ts : List Tier) :
    (ethRunGames d j ts).1 + (ethRunGames d j ts).2.1 = j := by
  induction ts generalizing j with
  | nil => simp [ethRunGames]
  | cons t rest ih =>
    have hstep := ethGameStep_fst d j t
    have hrest := ih ((ethGameStep d j t).1)
    simp only [ethRunGames]
    omega

/-- C2: for every non-negative pool balance B and every percentage-tier payout
P in {0, 20, 50, 100}, the computed gross payout equals the floor of
B * P / 100 under exact integer division, it never exceeds B, and the gross
payout computed inside the settlement loop agrees with that formula. -/
theorem c2_gross_payout_formula (B P : ℕ) (hP : P ∈ ([0, 20, 50, 100] : List ℕ)) :
    payoutAmount B P = B * P / 100
    ∧ payoutAmount B P ≤ B
    ∧ (∀ (d : Bool) (t : Tier), PAYOUT_PERCENTAGES t = P → 0 < P →
        (ethGameStep d (B : ℤ) t).2.1 = (payoutAmount B P : ℤ)) := by
  have hP100 : P ≤ 100 := by
    simp only [List.mem_cons, List.not_mem_nil, or_false] at hP
    rcases hP with h | h | h | h <;> omega
  refine ⟨rfl, nat_pct_div_le B P hP100, ?_⟩
  intro d t ht hpos
  unfold ethGameStep
  rw [ht]
  rw [if_pos hpos]
  simp only [payoutAmount]
  have h1 : ((B : ℤ) * (P : ℤ)) = ((B * P : ℕ) : ℤ) := by push_cast; ring
  rw [h1, show ((100 : ℤ)) = ((100 : ℕ) : ℤ) from rfl, ← Int.ofNat_tdiv]

/-- Witness for c2_gross_payout_formula at B = 12345, P = 50. -/
theorem c2_gross_payout_formula_witness :
    payoutAmount 12345 50 = 12345 * 50 / 100 ∧ payoutAmount 12345 50 ≤ 12345 :=
  ⟨(c2_gross_payout_formula 12345 50 (by norm_num)).1,
   (c2_gross_payout_formula 12345 50 (by norm_num)).2.1⟩

/-- C3: for every gross payout G, with a deployer address configured the fee
is the floor of G * 10 / 100 and the net player payout is G minus that fee,
with net + fee = G exactly; with no deployer address the net payout is G. -/
theorem c3_fee_split_exact (G : ℕ) :
    feeAmount G = G * 10 / 100
    ∧ winnerPayout true G = G - feeAmount G
    ∧ winnerPayout true G + feeAmount G = G
    ∧ winnerPayout false G = G := by
  have hfee : feeAmount G ≤ G := nat_pct_div_le G 10 (by norm_num)
  refine ⟨rfl, by simp [winnerPayout], ?_, by simp [winnerPayout]⟩
  simp only [winnerPayout, if_pos]
  omega

/-- C4: over all 512 three-symbol draws, the classification is top tier
exactly when all three symbols are the rare 💎; mid tier exactly when all
three are equal but not 💎; low tier exactly when exactly two positions match
under any of the three pairings; and no-match otherwise — so the four cases
are mutually exclusive and exhaustive, with the source's precedence, and the
code's classifier agrees with the spec-side one everywhere. -/
theorem c4_classification_cases :
    ∀ a b c : Symbol,
      calculateWinnings a b c = specClassify a b c
      ∧ (calculateWinnings a b c = Tier.threeDiamonds ↔
          a = diamond ∧ b = diamond ∧ c = diamond)
      ∧ (calculateWinnings a b c = Tier.threeOfAKind ↔
          (a = b ∧ b = c) ∧ a ≠ diamond)
      ∧ (calculateWinnings a b c = Tier.twoOfAKind ↔ exactlyTwoMatch a b c)
      ∧ (calculateWinnings a b c = Tier.noMatch ↔
          ¬(a = b ∧ b = c) ∧ ¬exactlyTwoMatch a b c) := by decide

/-- Rounding an exact multiple of the entry fee recovers the multiplier. -/
lemma roundRatio_mul (fee N : ℕ) (hfee : 0 < fee) :
    roundRatio fee (fee * N) = N := by
  unfold roundRatio
  have h1 : 2 * (fee * N) + fee = fee + N * (2 * fee) := by ring
  rw [h1, Nat.add_mul_div_right _ _ (by omega), Nat.div_eq_of_lt (by omega)]
  omega

/-- C5: the entry-fee validation is the tolerance rule — accept exactly when
the amount is at least entryFee minus the per-game tolerance and the gap to
entryFee * numGames is at most tolerance * numGames, with tolerance one tenth
of the entry fee in integer division — and it round-trips with the fee: every
exact multiple entryFee * N is accepted with numGames = N, half the entry fee
is rejected as too small, and one and a half times the entry fee is rejected
for exceeding the tolerance band. -/
theorem c5_validation_roundtrip (fee : ℕ) (hpos : 0 < fee) (heven : 2 ∣ fee) :
    (∀ amount : ℕ, tipAccepted fee amount = true ↔
        (minAmount fee ≤ amount
          ∧ amountDifference fee amount ≤ maxTolerance fee amount))
    ∧ (∀ N : ℕ, 0 < N →
        tipAccepted fee (fee * N) = true ∧ numGamesOf fee (fee * N) = N)
    ∧ (tipAccepted fee (fee / 2) = false ∧ fee / 2 < minAmount fee)
    ∧ (tipAccepted fee (3 * fee / 2) = false
        ∧ minAmount fee ≤ 3 * fee / 2
        ∧ maxTolerance fee (3 * fee / 2) < amountDifference fee (3 * fee / 2)) := by
  obtain ⟨k, rfl⟩ := heven
  have hk : 0 < k := by omega
  refine ⟨?_, ?_, ?_, ?_⟩
  · intro amount
    by_cases h : amount < minAmount (2 * k)
        ∨ maxTolerance (2 * k) amount < amountDifference (2 * k) amount
    · rw [tipAccepted, if_pos h]
      simp only [Bool.false_eq_true, false_iff, not_and, not_le]
      intro h1
      rcases h with h | h
      · omega
      · exact h
    · rw [tipAccepted, if_neg h]
      push_neg at h
      exact ⟨fun _ => h, fun _ => rfl⟩
  · intro N hN
    have hr : roundRatio (2 * k) (2 * k * N) = N := roundRatio_mul _ _ (by omega)
    have hng : numGamesOf (2 * k) (2 * k * N) = N := by
      rw [numGamesOf, hr]; omega
    refine ⟨?_, hng⟩
    rw [tipAccepted, if_neg ?_]
    rintro (h | h)
    · have hle : 2 * k ≤ 2 * k * N := Nat.le_mul_of_pos_right _ hN
      simp only [minAmount, tolerancePerGame] at h
      omega
    · rw [amountDifference, expectedAmount, hng] at h
      rw [if_neg (by omega), Nat.sub_self] at h
      omega
  · have h2 : 2 * k / 2 = k := by omega
    have hlt : 2 * k / 2 < minAmount (2 * k) := by
      simp only [minAmount, tolerancePerGame]
      omega
    exact ⟨by rw [tipAccepted, if_pos (Or.inl hlt)], hlt⟩
  · have h3 : 3 * (2 * k) / 2 = 3 * k := by omega
    have h8 : 2 * (3 * k) + 2 * k = 2 * (2 * (2 * k)) := by ring
    have hr : roundRatio (2 * k) (3 * k) = 2 := by
      rw [roundRatio, h8, Nat.mul_div_cancel _ (by omega)]
    have hng : numGamesOf (2 * k) (3 * k) = 2 := by
      rw [numGamesOf, hr]
      omega
    have hdiff : amountDifference (2 * k) (3 * k) = k := by
      rw [amountDifference, expectedAmount, hng, if_neg (by omega)]
      omega
    have htol : maxTolerance (2 * k) (3 * k) < amountDifference (2 * k) (3 * k) := by
      rw [hdiff, maxTolerance, hng]
      simp only [tolerancePerGame]
      omega
    have hmin : minAmount (2 * k) ≤ 3 * k := by
      simp only [minAmount, tolerancePerGame]
      omega
    rw [h3]
    exact ⟨by rw [tipAccepted, if_pos (Or.inr htol)], hmin, htol⟩

/-- Witness for c5_validation_roundtrip at fee = 20.  Accepting 20 * 3 with
numGames 3, rejecting 10 and 30. -/
theorem c5_validation_roundtrip_witness :
    (tipAccepted 20 (20 * 3) = true ∧ numGamesOf 20 (20 * 3) = 3)
    ∧ tipAccepted 20 (20 / 2) = false
    ∧ tipAccepted 20 (3 * 20 / 2) = false :=
  ⟨(c5_validation_roundtrip 20 (by norm_num) (by norm_num)).2.1 3 (by norm_num),
   (c5_validation_roundtrip 20 (by norm_num) (by norm_num)).2.2.1.1,
   (c5_validation_roundtrip 20 (by norm_num) (by norm_num)).2.2.2.1⟩

/-- C6: the implied number of games is Math.round(amount / fee) floored to a
minimum of 1, so any tip buys at least one game; and in the USDC
exact-multiple variant the implied number of games agrees with that formula
on every accepted tip and is also at least 1. -/
theorem c6_implied_num_games (fee amount : ℕ) (_hfee : 0 < fee) :
    numGamesOf fee amount = max 1 (roundRatio fee amount)
    ∧ 1 ≤ numGamesOf fee amount
    ∧ (usdcTipAccepted amount = true →
        usdcNumGames amount = max 1 (roundRatio ENTRY_FEE_USDC_UNITS amount)
        ∧ 1 ≤ usdcNumGames amount) := by
  refine ⟨rfl, le_max_left _ _, ?_⟩
  intro hacc
  have h : ¬(amount < ENTRY_FEE_USDC_UNITS ∨ amount % ENTRY_FEE_USDC_UNITS ≠ 0) := by
    intro hc
    rw [usdcTipAccepted, if_pos hc] at hacc
    exact absurd hacc (by simp)
  push_neg at h
  obtain ⟨hge, hmod⟩ := h
  obtain ⟨q, hq⟩ := Nat.dvd_of_mod_eq_zero hmod
  have hq1 : 1 ≤ q := by
    rw [hq] at hge
    by_contra hq0
    simp only [ENTRY_FEE_USDC_UNITS] at hge
    omega
  have hdiv : usdcNumGames amount = q := by
    rw [usdcNumGames, hq, Nat.mul_div_cancel_left q (by norm_num [ENTRY_FEE_USDC_UNITS])]
  have hr : roundRatio ENTRY_FEE_USDC_UNITS amount = q := by
    rw [hq]
    exact roundRatio_mul _ _ (by norm_num [ENTRY_FEE_USDC_UNITS])
  rw [hdiv, hr]
  omega

/-- Witness for c6_implied_num_games at fee = 7, amount = 20 (ETH side) with
the USDC side discharged at the accepted amount 500000 = 2 entry fees. -/
theorem c6_implied_num_games_witness :
    (numGamesOf 7 20 = max 1 (roundRatio 7 20) ∧ 1 ≤ numGamesOf 7 20)
    ∧ (usdcNumGames 500000 = max 1 (roundRatio ENTRY_FEE_USDC_UNITS 500000)
        ∧ 1 ≤ usdcNumGames 500000) :=
  ⟨⟨(c6_implied_num_games 7 20 (by norm_num)).1,
    (c6_implied_num_games 7 20 (by norm_num)).2.1⟩,
   (c6_implied_num_games 250000 500000 (by norm_num)).2.2 (by decide)⟩

/-- C7: under the local-ledger policy, when the batch's total payout is
positive and the external payment fails after exhausting retries, the
compensating credit of the gross totalWinnings restores the pool to its
pre-batch balance; in particular from pool 10000 a batch whose single game
wins 20% debits 2000 (pool 8000) and the failed payment restores 10000. -/
theorem c7_rollback_restores_pool :
    (∀ (d : Bool) (pool : ℤ) (ts : List Tier),
        0 < (ethRunGames d pool ts).2.2 →
        ledgerSettle d pool ts false = pool)
    ∧ (ethRunGames false 10000 [Tier.twoOfAKind]).1 = 8000
    ∧ (ethRunGames false 10000 [Tier.twoOfAKind]).2.1 = 2000
    ∧ ledgerSettle false 10000 [Tier.twoOfAKind] false = 10000 := by
  refine ⟨?_, by decide, by decide, by decide⟩
  intro d pool ts h
  simp only [ledgerSettle]
  rw [if_pos (And.intro h trivial)]
  exact ethRunGames_add_winnings d pool ts

/-- Witness for c7_rollback_restores_pool: the general restoration applied to
the concrete 10000-pool scenario. -/
theorem c7_rollback_restores_pool_witness :
    ledgerSettle false 10000 [Tier.twoOfAKind] false = 10000 :=
  c7_rollback_restores_pool.1 false 10000 [Tier.twoOfAKind] (by decide)

/-- C1 counterexample: in the fixed-multiple USDC variant the debit is not
clamped.  With the pool holding exactly one entry fee (250000 units) a single
three-of-a-kind game pays the fixed 3 * entryFee = 750000 and drives the
tracked pool balance to -500000 < 0, refuting the claim that the balance
stays non-negative in the fixed-multiple payout variant. -/
theorem c1_counterexample_fixed_payout_negative :
    (usdcRunGames false 250000 [Tier.threeOfAKind]).1 = -500000
    ∧ ((-500000 : ℤ) < 0) := by decide

/-- C1 (amended): in the percentage-of-pool variants every settlement batch
(entry-fee credit, per-game debits computed as a percentage of the current
balance, and the rollback credit on payment failure) keeps a non-negative
pool non-negative — by construction, with no explicit rejection or clamping —
while in the fixed-multiple USDC variant the unclamped fixed debit can drive
the tracked pool balance negative. -/
theorem c1_pool_nonneg_amended (d : Bool) (j fee : ℤ) (ts : List Tier)
    (ok : Bool) (hj : 0 ≤ j) (hfee : 0 ≤ fee) :
    0 ≤ ledgerOnTip d j fee ts ok
    ∧ (usdcRunGames false 250000 [Tier.threeOfAKind]).1 < 0 := by
  refine ⟨?_, by decide⟩
  rw [ledgerOnTip]
  have hj1 : 0 ≤ j + fee * (ts.length : ℤ) :=
    add_nonneg hj (mul_nonneg hfee (by positivity))
  simp only [ledgerSettle]
  split
  · have hsum := ethRunGames_add_winnings d (j + fee * (ts.length : ℤ)) ts
    omega
  · exact ethRunGames_nonneg d _ ts hj1

/-- Witness for c1_pool_nonneg_amended: a concrete batch with pool 1000,
entry fee 5, one mid-tier win and a successful payment. -/
theorem c1_pool_nonneg_amended_witness :
    0 ≤ ledgerOnTip true 1000 5 [Tier.threeOfAKind] true :=
  (c1_pool_nonneg_amended true 1000 5 [Tier.threeOfAKind] true
    (by norm_num) (by norm_num)).1

/-- C8 counterexample: with pending balance 5 and a failing payment the claim
flow attempts the payment but leaves the pending balance at 5, not 0 — the
claim that one invocation with pending M > 0 transitions the balance to 0
fails as stated. -/
theorem c8_counterexample_pending_not_cleared :
    claimButtonFlow 5 0 false =
      { newPending := 5, payments := [5], message := ClaimMessage.payFailed }
    ∧ ((5 : ℤ) ≠ 0) := by decide

/-- C8 (amended): invoking the claim action with pending balance 0 is a no-op
that reports nothing to claim (no payment attempted, no state changed, and
the /claim command offers no button); invoking it once with nonzero pending
balance M attempts exactly one payment of M, and the pending balance
transitions to 0 exactly when the payment succeeds (it is unchanged when the
payment fails). -/
theorem c8_claim_zero_noop_single_payment (M alt : ℤ) (ok : Bool) :
    (M = 0 → alt = 0 →
        claimButtonFlow M alt ok =
          { newPending := M, payments := [], message := ClaimMessage.noPending }
        ∧ slashClaim M = (false, ClaimMessage.noPending))
    ∧ (M ≠ 0 →
        (claimButtonFlow M alt ok).payments = [M]
        ∧ (claimButtonFlow M alt ok).newPending = if ok then 0 else M) := by
  constructor
  · rintro rfl rfl
    exact ⟨by simp [claimButtonFlow], by simp [slashClaim]⟩
  · intro hM
    rw [claimButtonFlow, if_neg hM]
    cases ok <;> simp

/-- Witness for c8_claim_zero_noop_single_payment at pending 5, successful
payment. -/
theorem c8_claim_zero_noop_single_payment_witness :
    (claimButtonFlow 5 0 true).payments = [5]
    ∧ (claimButtonFlow 5 0 true).newPending = if true then 0 else 5 :=
  (c8_claim_zero_noop_single_payment 5 0 true).2 (by norm_num)

/-- C9 counterexample: in src/src/index.ts the per-game message is formatted
with the jackpot after that game's debit.  From pool 1000 a 20% win debits
200, and the recorded message displays 800, not the 1000 snapshot the payout
was computed from — refuting the claim for this variant. -/
theorem c9_counterexample_displayed_not_snapshot :
    ethGameRecords false 1000 [Tier.twoOfAKind] =
      [{ snapshot := 1000, displayed := 800, payout := 200 }]
    ∧ ((800 : ℤ) ≠ 1000) := by decide

/-- C9 (amended): in the USDC variant every game's message displays the pool
snapshot the game's payout was computed from, while in the percentage ETH
variant every game's message displays that snapshot minus the game's gross
payout (the balance after the game's debit), not the pre-debit snapshot. -/
theorem c9_display_snapshot_by_variant (d : Bool) (j : ℤ) (ts : List Tier) :
    (∀ r ∈ usdcGameRecords d j ts, r.displayed = r.snapshot)
    ∧ (∀ r ∈ ethGameRecords d j ts, r.displayed = r.snapshot - r.payout) := by
  constructor
  · induction ts generalizing j with
    | nil => intro r hr; simp [usdcGameRecords] at hr
    | cons t rest ih =>
      intro r hr
      simp only [usdcGameRecords, List.mem_cons] at hr
      rcases hr with h | h
      · rw [h]
      · exact ih _ r h
  · induction ts generalizing j with
    | nil => intro r hr; simp [ethGameRecords] at hr
    | cons t rest ih =>
      intro r hr
      simp only [ethGameRecords, List.mem_cons] at hr
      rcases hr with h | h
      · rw [h]
        exact ethGameStep_fst d j t
      · exact ih _ r h

/-- Witness for c9_display_snapshot_by_variant: the USDC record of a single
three-of-a-kind game from pool 500 displays the snapshot 500. -/
theorem c9_display_snapshot_by_variant_witness :
    ({ snapshot := 500, displayed := 500, payout := 750000 } : GameRecord).displayed
      = ({ snapshot := 500, displayed := 500, payout := 750000 } : GameRecord).snapshot :=
  (c9_display_snapshot_by_variant false 500 [Tier.threeOfAKind]).1
    { snapshot := 500, displayed := 500, payout := 750000 } (by decide)

/-- C10: in the claim flow with nonzero pending balance M, a payment failure
after all retries leaves the pending balance unchanged at M (only the one
payment of M was attempted) and the failure message is sent instead. -/
theorem c10_failure_keeps_pending (M alt : ℤ) (h : M ≠ 0) :
    (claimButtonFlow M alt false).newPending = M
    ∧ (claimButtonFlow M alt false).payments = [M]
    ∧ (claimButtonFlow M alt false).message = ClaimMessage.payFailed := by
  rw [claimButtonFlow, if_neg h]
  simp

/-- Witness for c10_failure_keeps_pending at pending 7. -/
theorem c10_failure_keeps_pending_witness :
    (claimButtonFlow 7 0 false).newPending = 7
    ∧ (claimButtonFlow 7 0 false).payments = [7]
    ∧ (claimButtonFlow 7 0 false).message = ClaimMessage.payFailed :=
  c10_failure_keeps_pending 7 0 (by norm_num)

end TownsSlot
